import Mathlib

/-!
Verification development for the HubQuilt browser-extension core.

Shallow embedding of:
* `observeAndProcess` (src/core/dom-observer.ts) - the Observation & Dispatch
  Engine: an initial `document.querySelectorAll` scan followed by a
  MutationObserver on a root element.  DOM elements are modelled as a tree of
  nodes carrying an identity (`Nat`); CSS selectors are modelled as abstract
  structural predicates on that identity, and the comma-joined selector string
  as "any selector matches".
* `bootstrapFeatures` (src/core/feature-registry.ts) - the Feature Dispatcher:
  a sequential `for`/`await` loop over the static feature registry with skip
  conditions (page type, enabled setting, PAT requirement) and a per-feature
  `try`/`catch`.
* the persistent caches of src/features/font-preview.ts
  (`getCachedTree`/`setCachedTree`, `getCachedFileMetadata`/
  `setCachedFileMetadata`): `chrome.storage.local` is modelled as an
  `Except`-wrapped key-value map, an `Except.error` standing for a rejected
  storage promise, which an `await` re-raises.
* `getJson` of src/core/github-api-client.ts: a non-2xx response makes it
  throw `Error("GitHub API error " + status + ": " + statusText)`; the decimal
  rendering of the status is embedded by `natDecimal`.

Date strings (ISO `lastCommitTime` values) are modelled by their parsed
numeric time (`Nat`), `undefined`/empty strings by `Option.none`, matching
JavaScript truthiness where it is tested.
-/

deriving instance DecidableEq for Except

/-- A DOM element: an identity and the list of child elements, in document
order.  Identity models JavaScript object identity of the live node. -/
inductive DomNode where
  | mk (id : Nat) (children : List DomNode)

/-- The identity of an element. -/
def DomNode.id : DomNode → Nat
  | .mk i _ => i

/-- The child elements of an element. -/
def DomNode.children : DomNode → List DomNode
  | .mk _ cs => cs

mutual

/-- All element identities of a subtree, in document order (the node itself
first).  This is the order `document.querySelectorAll` enumerates. -/
def DomNode.preorder : DomNode → List Nat
  | .mk i cs => i :: DomNode.preorderList cs

/-- Document-order identities of a forest of sibling subtrees. -/
def DomNode.preorderList : List DomNode → List Nat
  | [] => []
  | c :: cs => c.preorder ++ DomNode.preorderList cs

end

/-- The identities of the strict descendants of a node, in document order:
the range of `node.querySelectorAll` before selector filtering. -/
def DomNode.descendants (n : DomNode) : List Nat :=
  DomNode.preorderList n.children

/-- `selectorArray.some(selector => selector matches e)`: the comma-joined
selector string of the source matches exactly when some selector does. -/
def selectorMatches (sels : List (Nat → Bool)) (e : Nat) : Bool :=
  sels.any (fun s => s e)

/-- `document.querySelectorAll(selectorString)` over the whole document:
every element of the document matching some selector, once each, in document
order. -/
def querySelectorAllDoc (doc : DomNode) (sels : List (Nat → Bool)) : List Nat :=
  doc.preorder.filter (selectorMatches sels)

/-- `node.querySelectorAll(selectorString)`: the matching strict descendants
of a node. -/
def querySelectorAllNode (n : DomNode) (sels : List (Nat → Bool)) : List Nat :=
  n.descendants.filter (selectorMatches sels)

/-- One MutationRecord: the list of added nodes it reports. -/
structure MutationRecord where
  addedNodes : List DomNode

/-- The handler invocations the MutationObserver callback performs for a
single added node: the node itself if it matches some selector, then its
matching descendants (`node.matches` check followed by
`node.querySelectorAll`). -/
def processAddedNode (sels : List (Nat → Bool)) (n : DomNode) : List Nat :=
  (if selectorMatches sels n.id then [n.id] else []) ++ querySelectorAllNode n sels

/-- The handler invocations for one mutation batch (one callback call over a
list of MutationRecords). -/
def mutationBatchMatches (sels : List (Nat → Bool)) (batch : List MutationRecord) : List Nat :=
  (batch.map (fun m => (m.addedNodes.map (processAddedNode sels)).flatten)).flatten

/-- What a call to `observeAndProcess` produces and sets up: the synchronous
initial-scan invocations (performed before the call returns), and the
observation it registers (`observer.observe(root, { childList: true,
subtree: true })`). -/
structure EngineResult where
  initialInvocations : List Nat
  observeTarget : DomNode
  observeChildList : Bool
  observeSubtree : Bool

/-- `observeAndProcess(selectors, processor, root)`: processes
`document.querySelectorAll(selectorString)` immediately (note: the whole
document, not the subtree of `root`), then observes `root` with
`{ childList: true, subtree: true }`. -/
def observeAndProcess (doc : DomNode) (sels : List (Nat → Bool)) (root : DomNode) :
    EngineResult :=
  { initialInvocations := querySelectorAllDoc doc sels
    observeTarget := root
    observeChildList := true
    observeSubtree := true }

/-- The complete sequence of handler invocations over the lifetime of one
watch: the initial scan, then each delivered mutation batch in order. -/
def watchTrace (doc : DomNode) (sels : List (Nat → Bool))
    (batches : List (List MutationRecord)) : List Nat :=
  querySelectorAllDoc doc sels ++ (batches.map (mutationBatchMatches sels)).flatten

/-- `elements.forEach(processor)` with a processor that may throw: elements
are processed in order; a thrown exception aborts the iteration (the throwing
element was invoked) and propagates.  Returns the invoked elements and the
escaped exception, if any. -/
def forEachExc (proc : Nat → Except Unit Unit) : List Nat → List Nat × Option Unit
  | [] => ([], none)
  | e :: es =>
    match proc e with
    | .error ex => ([e], some ex)
    | .ok _ =>
      let r := forEachExc proc es
      (e :: r.1, r.2)

/-- The initial scan of `observeAndProcess` with a throwing processor:
`existingElements.forEach(processor)` has no `try`/`catch`. -/
def initialScanExc (doc : DomNode) (sels : List (Nat → Bool))
    (proc : Nat → Except Unit Unit) : List Nat × Option Unit :=
  forEachExc proc (querySelectorAllDoc doc sels)

/-- One MutationObserver callback call with a throwing processor: the nested
`forEach` loops abort at the first exception, which escapes the callback. -/
def mutationBatchExc (sels : List (Nat → Bool)) (batch : List MutationRecord)
    (proc : Nat → Except Unit Unit) : List Nat × Option Unit :=
  forEachExc proc (mutationBatchMatches sels batch)

/-! ## Feature Dispatcher (src/core/feature-registry.ts) -/

/-- One entry of a Feature's `options` list (`FeatureOption`); option values
are modelled as strings. -/
structure FeatureOption where
  key : String
  defaultValue : String
deriving DecidableEq

/-- A registered Feature.  `init` is the outcome of `feature.init(ctx,
settings)` for this activation pass, as a function of the settings record it
receives (the context is fixed for the pass); `Except.error` models a thrown
exception or rejected promise. -/
structure Feature where
  id : String
  name : String
  pageTypes : List String
  isEnabledByDefault : Bool
  requiresPAT : Bool
  options : List FeatureOption
  init : (String → Option String) → Except String Unit

/-- The environment of one activation pass: the detected page type, the saved
`featureSettings` record (`featureId -> enabled`), the saved `featureOptions`
record (`featureId -> {key -> value}`), and whether a PAT is configured. -/
structure BootstrapEnv where
  pageType : String
  featureSettings : String → Option Bool
  featureOptions : String → Option (List (String × String))
  hasPAT : Bool

/-- The `defaults` object built by `getFeatureOptionsWithDefaults`: later
writes shadow earlier ones, so the pair is prepended and `List.lookup` (first
match) realises object-property lookup. -/
def featureDefaults (f : Feature) : List (String × String) :=
  f.options.foldl (fun m o => (o.key, o.defaultValue) :: m) []

/-- `getFeatureOptionsWithDefaults(feature, savedOptions)`: the object spread
`{...defaults, ...(savedOptions[feature.id] ?? {})}` read as a lookup
function - a saved value wins, otherwise the declared default. -/
def getFeatureOptionsWithDefaults (f : Feature) (env : BootstrapEnv) :
    String → Option String := fun k =>
  match ((env.featureOptions f.id).getD []).lookup k with
  | some v => some v
  | none => (featureDefaults f).lookup k

/-- `featureSettings[feature.id] ?? feature.isEnabledByDefault`. -/
def featureEnabled (env : BootstrapEnv) (f : Feature) : Bool :=
  (env.featureSettings f.id).getD f.isEnabledByDefault

/-- The PAT skip condition: `feature.requiresPAT && !hasPAT`. -/
def patSkipped (env : BootstrapEnv) (f : Feature) : Bool :=
  f.requiresPAT && !env.hasPAT

/-- A feature reaches its `init` call iff it passes the three skip checks of
the loop body. -/
def featureEligible (env : BootstrapEnv) (f : Feature) : Bool :=
  f.pageTypes.contains env.pageType && featureEnabled env f && !(patSkipped env f)

/-- The observable outcome of one activation pass: which features' `init` ran
and with which settings, the PAT-skip warnings (`console.warn`, logging the
feature name), and the caught failures (`console.error`, logging the feature
id and the error). -/
structure BootstrapResult where
  invoked : List (String × (String → Option String))
  warnings : List String
  failures : List (String × String)

/-- One iteration of the `for (const feature of ALL_FEATURES)` loop:
`continue` on a page-type mismatch; `continue` if disabled; warn and
`continue` if a PAT is required but absent; otherwise invoke `init` inside
`try`/`catch`, logging a failure with the feature id. -/
def bootstrapStep (env : BootstrapEnv) (acc : BootstrapResult) (f : Feature) :
    BootstrapResult :=
  if !(f.pageTypes.contains env.pageType) then acc
  else if !(featureEnabled env f) then acc
  else if f.requiresPAT && !env.hasPAT then
    { acc with warnings := acc.warnings ++ [f.name] }
  else
    let settings := getFeatureOptionsWithDefaults f env
    match f.init settings with
    | .ok _ => { acc with invoked := acc.invoked ++ [(f.id, settings)] }
    | .error e =>
      { acc with
        invoked := acc.invoked ++ [(f.id, settings)]
        failures := acc.failures ++ [(f.id, e)] }

/-- `bootstrapFeatures`: the activation pass over the registry.  The function
is total: every `init` failure is absorbed into the result, so no exception
or rejection reaches the caller of the pass. -/
def bootstrapFeatures (env : BootstrapEnv) (features : List Feature) : BootstrapResult :=
  features.foldl (bootstrapStep env) ⟨[], [], []⟩

/-- The invocations the pass performs, described independently of the fold:
one per eligible feature, in registration order, with the resolved
settings. -/
def invokedOf (env : BootstrapEnv) (features : List Feature) :
    List (String × (String → Option String)) :=
  features.filterMap fun f =>
    if featureEligible env f then some (f.id, getFeatureOptionsWithDefaults f env)
    else none

/-- The PAT-skip warnings of the pass, described independently of the fold. -/
def warningsOf (env : BootstrapEnv) (features : List Feature) : List String :=
  features.filterMap fun f =>
    if f.pageTypes.contains env.pageType && featureEnabled env f && patSkipped env f then
      some f.name
    else none

/-- The logged failures of the pass, described independently of the fold. -/
def failuresOf (env : BootstrapEnv) (features : List Feature) : List (String × String) :=
  features.filterMap fun f =>
    if featureEligible env f then
      match f.init (getFeatureOptionsWithDefaults f env) with
      | .error e => some (f.id, e)
      | .ok _ => none
    else none

/-- An event of the dispatcher's activation timeline: a feature's `init` is
begun, or the awaited `init` settles. -/
inductive ActivationEv where
  | beginInit (id : String)
  | settleInit (id : String)
deriving DecidableEq, BEq

/-- The activation timeline of `bootstrapFeatures`: the loop body `await
feature.init(...)` settles each eligible feature's activation before the loop
proceeds to the next feature. -/
def bootstrapTrace (env : BootstrapEnv) : List Feature → List ActivationEv
  | [] => []
  | f :: fs =>
    (if featureEligible env f then
      [ActivationEv.beginInit f.id, ActivationEv.settleInit f.id]
    else []) ++ bootstrapTrace env fs

/-! ## Persistent caches (src/features/font-preview.ts)

`chrome.storage.local` restricted to one cache family is a key-value map;
the whole store is wrapped in `Except String` so that `Except.error` models
the rejected promise of an unavailable storage backend, which every `await`
on a storage operation re-raises. -/

/-- `CACHE_DURATION = 60 * 60 * 1000` (one hour, in milliseconds). -/
def CACHE_DURATION : Nat := 60 * 60 * 1000

/-- The `CACHE_PREFIX` constant of the source. -/
def cacheKeyHead : String := "hq-file-cache:"

/-- A stored tree-cache record (`CachedTreeData`); tree entries are opaque
payloads, modelled as strings. -/
structure CachedTreeData where
  tree : List String
  timestamp : Nat
deriving DecidableEq

/-- A stored file-metadata record (`CachedFileMetadata`).  `sha` is the
optional string field `sha?`; `lastCommitTime` is the optional ISO date
string, modelled by its parsed time. -/
structure CachedFileMetadata where
  size : Nat
  downloadUrl : String
  sha : Option String
  timestamp : Nat
  lastCommitTime : Option Nat
deriving DecidableEq

/-- The value shape `getCachedFileMetadata` returns (`FileMetadata`). -/
structure FileMetadata where
  size : Nat
  downloadUrl : String
  sha : Option String
deriving DecidableEq

/-- The tree-cache key: CACHE_PREFIX + "tree:{owner}/{repo}/{ref}". -/
def treeCacheKey (owner repo ref : String) : String :=
  cacheKeyHead ++ "tree:" ++ owner ++ "/" ++ repo ++ "/" ++ ref

/-- The file-metadata cache key:
CACHE_PREFIX + "file:{owner}/{repo}/{ref}:{path}". -/
def fileCacheKey (owner repo path ref : String) : String :=
  cacheKeyHead ++ "file:" ++ owner ++ "/" ++ repo ++ "/" ++ ref ++ ":" ++ path

/-- `getCachedTree(owner, repo, ref)`: awaits the storage read (a rejection
propagates - there is no `try`/`catch`), then returns the tree if the entry
exists and its TTL has not elapsed, else `null`. -/
def getCachedTree (storage : Except String (String → Option CachedTreeData))
    (owner repo ref : String) (now : Nat) : Except String (Option (List String)) :=
  match storage with
  | .error e => .error e
  | .ok store =>
    match store (treeCacheKey owner repo ref) with
    | some data =>
      if now - data.timestamp < CACHE_DURATION then .ok (some data.tree) else .ok none
    | none => .ok none

/-- `setCachedTree(owner, repo, ref, tree)`: awaits the storage write (a
rejection propagates), overwriting the entry with `timestamp = Date.now()`. -/
def setCachedTree (storage : Except String (String → Option CachedTreeData))
    (owner repo ref : String) (tree : List String) (now : Nat) :
    Except String (String → Option CachedTreeData) :=
  match storage with
  | .error e => .error e
  | .ok store =>
    .ok fun k =>
      if k = treeCacheKey owner repo ref then some ⟨tree, now⟩ else store k

/-- `getCachedFileMetadata(owner, repo, path, ref, lastCommitTime?)`: awaits
the storage read (a rejection propagates); `null` if no entry; `null` if the
entry's `sha` is missing or empty (`!data.sha`, the old-cache-format check);
if both the supplied and the stored `lastCommitTime` are present, `null`
exactly when the supplied one is strictly newer; otherwise `null` exactly
when the TTL has elapsed.  On success returns the stored
size/downloadUrl/sha. -/
def getCachedFileMetadata
    (storage : Except String (String → Option CachedFileMetadata))
    (owner repo path ref : String) (now : Nat) (lastCommitTime : Option Nat) :
    Except String (Option FileMetadata) :=
  match storage with
  | .error e => .error e
  | .ok store =>
    match store (fileCacheKey owner repo path ref) with
    | none => .ok none
    | some data =>
      if data.sha.getD "" = "" then .ok none
      else
        match lastCommitTime, data.lastCommitTime with
        | some supplied, some stored =>
          if stored < supplied then .ok none
          else .ok (some ⟨data.size, data.downloadUrl, data.sha⟩)
        | _, _ =>
          if CACHE_DURATION ≤ now - data.timestamp then .ok none
          else .ok (some ⟨data.size, data.downloadUrl, data.sha⟩)

/-- `setCachedFileMetadata(owner, repo, path, ref, metadata,
lastCommitTime?)`: awaits the storage write (a rejection propagates),
overwriting the entry with `timestamp = Date.now()` and the supplied
freshness proof. -/
def setCachedFileMetadata
    (storage : Except String (String → Option CachedFileMetadata))
    (owner repo path ref : String) (metadata : FileMetadata) (now : Nat)
    (lastCommitTime : Option Nat) :
    Except String (String → Option CachedFileMetadata) :=
  match storage with
  | .error e => .error e
  | .ok store =>
    .ok fun k =>
      if k = fileCacheKey owner repo path ref then
        some ⟨metadata.size, metadata.downloadUrl, metadata.sha, now, lastCommitTime⟩
      else store k

/-- Modelled from the spec (the claim's own validity condition, for
comparison with the source): "a read is valid iff an entry exists and either
the proof is absent and the TTL has not elapsed, or the stored proof is not
older than the supplied one." -/
def specGetIfFreshValid (entry : Option CachedFileMetadata) (now : Nat)
    (supplied : Option Nat) : Bool :=
  match entry with
  | none => false
  | some data =>
    (supplied.isNone && decide (now - data.timestamp < CACHE_DURATION)) ||
    (match supplied, data.lastCommitTime with
     | some p, some s => decide (p ≤ s)
     | _, _ => false)

/-- The validity condition `getCachedFileMetadata` actually implements, per
stored entry: the stored `sha` is present and nonempty, and - when both the
supplied and the stored freshness proofs are present - the stored proof is
not older than the supplied one, otherwise the TTL has not elapsed. -/
def fileCacheReadValid (data : CachedFileMetadata) (now : Nat)
    (supplied : Option Nat) : Bool :=
  (data.sha.getD "" != "") &&
  (match supplied, data.lastCommitTime with
   | some p, some s => decide (p ≤ s)
   | _, _ => decide (now - data.timestamp < CACHE_DURATION))

/-! ## GitHub API client (src/core/github-api-client.ts) -/

/-- The character of a decimal digit, by code point. -/
def natDigitChar (d : Nat) : Char :=
  Char.ofNat (48 + d)

/-- Decimal rendering of a natural number as a character list (the embedding
of the template-literal interpolation of `res.status`). -/
def natDecimal (n : Nat) : List Char :=
  if _h : n < 10 then [natDigitChar n]
  else natDecimal (n / 10) ++ [natDigitChar (n % 10)]
termination_by n
decreasing_by
  exact Nat.div_lt_self (by omega) (by omega)

/-- Decimal rendering of a natural number as a string. -/
def natDecimalStr (n : Nat) : String :=
  String.mk (natDecimal n)

/-- The numeric value of a decimal digit character, if it is one. -/
def digitVal (c : Char) : Option Nat :=
  if '0' ≤ c ∧ c ≤ '9' then some (c.toNat - '0'.toNat) else none

/-- One step of decimal parsing. -/
def decStep (acc : Option Nat) (c : Char) : Option Nat :=
  acc.bind fun a => (digitVal c).map fun d => a * 10 + d

/-- Parse a nonempty all-digit character list as a natural number. -/
def decimalToNat (cs : List Char) : Option Nat :=
  if cs.isEmpty then none else cs.foldl decStep (some 0)

/-- The fixed head of every `getJson` error message. -/
def errMsgHead : String := "GitHub API error "

/-- The message of the error `getJson` throws on a non-2xx response:
`GitHub API error {status}: {statusText}`. -/
def mkApiErrorMsg (status : Nat) (statusText : String) : String :=
  errMsgHead ++ natDecimalStr status ++ ": " ++ statusText

/-- `res.ok`: the HTTP status is in the 2xx range. -/
def resOk (status : Nat) : Bool :=
  200 ≤ status && status ≤ 299

/-- `getJson(path, params?)` applied to the fetched response, abstracted over
the decoded body: returns the body on a 2xx status and throws
`Error("GitHub API error {status}: {statusText}")` otherwise. -/
def getJson {α : Type} (status : Nat) (statusText : String) (body : α) :
    Except String α :=
  if resOk status then .ok body else .error (mkApiErrorMsg status statusText)

/-- Recover the HTTP status from a `getJson` error message: strip the fixed
head, take the digits before the first colon, parse.  Witnesses that the
thrown error determines the status exactly, so a caller can tell rate-limit
and forbidden responses apart from generic failures. -/
def errorStatusOfMsg (msg : String) : Option Nat :=
  if errMsgHead.toList.isPrefixOf msg.toList then
    decimalToNat ((msg.toList.drop errMsgHead.length).takeWhile (fun c => c != ':'))
  else none

/-- A discriminator built on `errorStatusOfMsg`: does the error message
report HTTP 403 or 429? -/
def isRateLimitOrForbiddenMsg (msg : String) : Bool :=
  match errorStatusOfMsg msg with
  | some s => s == 403 || s == 429
  | none => false

/-- `hay.includes(needle)` on strings. -/
def strIncludes (hay needle : String) : Bool :=
  hay.toList.tails.any fun t => needle.toList.isPrefixOf t

/-- The check `fetchTreeData` applies to a caught error before entering its
cool-down: `error.message.includes('403') || error.message.includes('429')`. -/
def isRateLimitSignal (msg : String) : Bool :=
  strIncludes msg "403" || strIncludes msg "429"

/-! ## Concrete scenarios used by counterexamples and witnesses -/

/-- A document containing one element of identity 5 under the root. -/
def c1doc : DomNode := .mk 0 [.mk 5 []]

/-- A selector matching exactly the element of identity 5. -/
def c1sel : Nat → Bool := fun e => e == 5

/-- One later mutation batch re-delivering the same live element (identity
5), e.g. after it was detached and re-appended. -/
def c1batches : List (List MutationRecord) := [[⟨[DomNode.mk 5 []]⟩]]

/-- A document with two sibling elements, identities 1 and 2. -/
def c2doc : DomNode := .mk 0 [.mk 1 [], .mk 2 []]

/-- A selector list matching elements 1 and 2. -/
def c2sels : List (Nat → Bool) := [fun e => e == 1 || e == 2]

/-- A handler that throws on element 1 and succeeds elsewhere. -/
def c2proc : Nat → Except Unit Unit :=
  fun e => if e == 1 then .error () else .ok ()

/-- An activation environment: page type "repo", no saved settings or
options, no PAT. -/
def c3env : BootstrapEnv := ⟨"repo", fun _ => none, fun _ => none, false⟩

/-- A feature applicable to "repo", enabled by default, whose `init`
throws. -/
def c3failing : Feature :=
  ⟨"f-throws", "F throws", ["repo"], true, false, [], fun _ => .error "boom"⟩

/-- A later-registered feature applicable to "repo", enabled by default,
whose `init` succeeds. -/
def c3next : Feature :=
  ⟨"f-succeeds", "F succeeds", ["repo"], true, false, [], fun _ => .ok ()⟩

/-- A cached file-metadata entry with a valid sha, written at time 0 with no
stored freshness proof. -/
def c4data : CachedFileMetadata := ⟨100, "u", some "abc", 0, none⟩

/-- A store holding exactly that entry under the key of owner "o", repo
"re", path "p", ref "m". -/
def c4store : String → Option CachedFileMetadata :=
  fun k => if k = fileCacheKey "o" "re" "p" "m" then some c4data else none

/-- First registered feature of the ordering scenario. -/
def c6feat1 : Feature := ⟨"f1", "F1", ["repo"], true, false, [], fun _ => .ok ()⟩

/-- Second registered feature of the ordering scenario. -/
def c6feat2 : Feature := ⟨"f2", "F2", ["repo"], true, false, [], fun _ => .ok ()⟩

/-- Activation environment for the ordering scenario. -/
def c6env : BootstrapEnv := ⟨"repo", fun _ => none, fun _ => none, false⟩

/-! ## Helper lemmas -/

/-- `forEachExc` on a list whose first throwing element is `a`: everything
before `a` and `a` itself are invoked, nothing after `a` is, and the
exception escapes. -/
theorem forEachExc_first_error (proc : Nat → Except Unit Unit)
    (pre post : List Nat) (a : Nat)
    (hok : ∀ x ∈ pre, proc x = .ok ()) (herr : proc a = .error ()) :
    forEachExc proc (pre ++ a :: post) = (pre ++ [a], some ()) := by
  induction pre with
  | nil => simp [forEachExc, herr]
  | cons x xs ih =>
    have hx : proc x = .ok () := hok x (by simp)
    have ihx := ih (fun y hy => hok y (by simp [hy]))
    simp [forEachExc, hx, ihx]

/-- The fold of the dispatcher loop, from an arbitrary accumulator. -/
theorem bootstrapFoldl (env : BootstrapEnv) (features : List Feature) :
    ∀ acc : BootstrapResult,
      features.foldl (bootstrapStep env) acc
        = ⟨acc.invoked ++ invokedOf env features,
           acc.warnings ++ warningsOf env features,
           acc.failures ++ failuresOf env features⟩ := by
  induction features with
  | nil => intro acc; simp [invokedOf, warningsOf, failuresOf]
  | cons f fs ih =>
    intro acc
    rw [List.foldl_cons, ih]
    by_cases h1 : env.pageType ∈ f.pageTypes
    · by_cases h2 : featureEnabled env f
      · by_cases hr : f.requiresPAT
        · by_cases hp : env.hasPAT
          · rcases hout : f.init (getFeatureOptionsWithDefaults f env) with e | u
            · simp [bootstrapStep, invokedOf, warningsOf, failuresOf, featureEligible,
                patSkipped, h1, h2, hr, hp, hout]
            · simp [bootstrapStep, invokedOf, warningsOf, failuresOf, featureEligible,
                patSkipped, h1, h2, hr, hp, hout]
          · simp [bootstrapStep, invokedOf, warningsOf, failuresOf, featureEligible,
              patSkipped, h1, h2, hr, hp]
        · rcases hout : f.init (getFeatureOptionsWithDefaults f env) with e | u
          · simp [bootstrapStep, invokedOf, warningsOf, failuresOf, featureEligible,
              patSkipped, h1, h2, hr, hout]
          · simp [bootstrapStep, invokedOf, warningsOf, failuresOf, featureEligible,
              patSkipped, h1, h2, hr, hout]
      · simp [bootstrapStep, invokedOf, warningsOf, failuresOf, featureEligible,
          patSkipped, h1, h2]
    · simp [bootstrapStep, invokedOf, warningsOf, failuresOf, featureEligible,
        patSkipped, h1]

/-- The dispatcher's result, described per feature. -/
theorem bootstrapFeatures_eq (env : BootstrapEnv) (features : List Feature) :
    bootstrapFeatures env features
      = ⟨invokedOf env features, warningsOf env features, failuresOf env features⟩ := by
  rw [bootstrapFeatures, bootstrapFoldl]
  simp

/-- The activation timeline distributes over concatenation of the
registry. -/
theorem bootstrapTrace_append (env : BootstrapEnv) (xs ys : List Feature) :
    bootstrapTrace env (xs ++ ys) = bootstrapTrace env xs ++ bootstrapTrace env ys := by
  induction xs with
  | nil => simp [bootstrapTrace]
  | cons f fs ih => simp [bootstrapTrace, ih]

/-! ## Claims about the Observation & Dispatch Engine -/

/-- C1.  The claim states that for every watch and every live element the
handler fires at most once, the engine marking processed elements.  The
source attaches no marker and keeps no registry: the same live element
(identity 5), already processed by the initial scan, is processed again when
a mutation batch re-delivers it, so the handler fires twice. -/
theorem c1_counterexample :
    ¬ ((watchTrace c1doc [c1sel] c1batches).count 5 ≤ 1) := by decide

/-- C1 (amended).  Within the initial scan alone the handler does fire at
most once per element, because `document.querySelectorAll` yields each
element of a duplicate-free document once; the engine performs no
deduplication beyond that - across the scan and later mutation batches an
element is processed once per delivery, and any per-element marking is left
to the feature handlers. -/
theorem c1_amended (doc root : DomNode) (sels : List (Nat → Bool)) (e : Nat)
    (hnodup : doc.preorder.Nodup) :
    ((observeAndProcess doc sels root).initialInvocations).count e ≤ 1 := by
  have hsub : List.Sublist (querySelectorAllDoc doc sels) doc.preorder :=
    List.filter_sublist _
  have hle := hsub.count_le e
  have hone := List.nodup_iff_count_le_one.mp hnodup e
  exact le_trans hle hone

/-- Witness for `c1_amended` at a concrete duplicate-free document. -/
theorem c1_amended_witness :
    (DomNode.mk 0 [DomNode.mk 5 []]).preorder.Nodup ∧
      ((observeAndProcess (DomNode.mk 0 [DomNode.mk 5 []]) [c1sel]
          (DomNode.mk 0 [DomNode.mk 5 []])).initialInvocations).count 5 ≤ 1 :=
  ⟨by decide, c1_amended _ _ [c1sel] 5 (by decide)⟩

/-- C2.  The claim states that a handler exception for one element is caught
and logged and the other matched elements of the batch are still processed.
The source has no `try`/`catch`: with elements 1 and 2 both matched by the
initial scan and the handler throwing on 1, element 2 is never processed and
the exception escapes. -/
theorem c2_counterexample :
    ¬ (2 ∈ (initialScanExc c2doc c2sels c2proc).1 ∧
        (initialScanExc c2doc c2sels c2proc).2 = none) := by decide

/-- C2 (amended).  The engine does not catch handler exceptions.  In the
initial scan, elements before the first throwing one are processed, the
throwing element's invocation is the last, and the exception escapes
`observeAndProcess` (before the observer is even attached); a mutation batch
behaves the same way for the elements it delivers, the exception escaping
the observer callback (the observer itself stays attached, so later batches
are still processed by the host). -/
theorem c2_amended (doc : DomNode) (sels : List (Nat → Bool))
    (proc : Nat → Except Unit Unit) (pre post : List Nat) (a : Nat)
    (hscan : querySelectorAllDoc doc sels = pre ++ a :: post)
    (hok : ∀ x ∈ pre, proc x = .ok ()) (herr : proc a = .error ()) :
    initialScanExc doc sels proc = (pre ++ [a], some ()) ∧
      ∀ (batch : List MutationRecord) (bpre bpost : List Nat) (b : Nat),
        mutationBatchMatches sels batch = bpre ++ b :: bpost →
        (∀ x ∈ bpre, proc x = .ok ()) → proc b = .error () →
        mutationBatchExc sels batch proc = (bpre ++ [b], some ()) := by
  constructor
  · rw [initialScanExc, hscan]
    exact forEachExc_first_error proc pre post a hok herr
  · intro batch bpre bpost b hbatch hbok hberr
    rw [mutationBatchExc, hbatch]
    exact forEachExc_first_error proc bpre bpost b hbok hberr

/-- Witness for `c2_amended`: the concrete two-element scan, throwing on the
first element. -/
theorem c2_amended_witness :
    querySelectorAllDoc c2doc c2sels = [] ++ 1 :: [2] ∧
      (∀ x ∈ ([] : List Nat), c2proc x = .ok ()) ∧
      c2proc 1 = .error () ∧
      (initialScanExc c2doc c2sels c2proc = ([] ++ [1], some ()) ∧
        ∀ (batch : List MutationRecord) (bpre bpost : List Nat) (b : Nat),
          mutationBatchMatches c2sels batch = bpre ++ b :: bpost →
          (∀ x ∈ bpre, c2proc x = .ok ()) → c2proc b = .error () →
          mutationBatchExc c2sels batch c2proc = (bpre ++ [b], some ())) :=
  ⟨by decide, by decide, by decide,
    c2_amended c2doc c2sels c2proc [] [2] 1 (by decide) (by decide) (by decide)⟩

/-- C5.  The initial scan is synchronous and complete: every element of the
document matching some selector of the watch is among the initial
invocations, which `observeAndProcess` performs before it returns (before
the observer is attached, without waiting for any mutation); and once
observation starts, a delivered batch triggers the handler both for an added
node that itself matches and for every matching element nested anywhere
inside an added subtree. -/
theorem c5_initial_scan_and_insertions (doc root : DomNode)
    (sels : List (Nat → Bool)) (e : Nat)
    (he : e ∈ doc.preorder) (hm : selectorMatches sels e = true) :
    e ∈ (observeAndProcess doc sels root).initialInvocations ∧
      ∀ (batch : List MutationRecord) (m : MutationRecord) (n : DomNode),
        m ∈ batch → n ∈ m.addedNodes →
        (selectorMatches sels n.id = true → n.id ∈ mutationBatchMatches sels batch) ∧
        (∀ d ∈ n.descendants, selectorMatches sels d = true →
          d ∈ mutationBatchMatches sels batch) := by
  constructor
  · exact List.mem_filter.mpr ⟨he, hm⟩
  · intro batch m n hmb hnm
    have hsub : processAddedNode sels n ⊆ mutationBatchMatches sels batch := by
      intro x hx
      rw [mutationBatchMatches]
      rw [List.mem_flatten]
      refine ⟨(m.addedNodes.map (processAddedNode sels)).flatten, List.mem_map_of_mem _ hmb, ?_⟩
      rw [List.mem_flatten]
      exact ⟨processAddedNode sels n, List.mem_map_of_mem _ hnm, hx⟩
    constructor
    · intro hmatch
      apply hsub
      rw [processAddedNode, hmatch]
      simp
    · intro d hd hdm
      apply hsub
      rw [processAddedNode]
      exact List.mem_append_right _ (List.mem_filter.mpr ⟨hd, hdm⟩)

/-- Witness for `c5_initial_scan_and_insertions` at a one-element match. -/
theorem c5_witness :
    1 ∈ (DomNode.mk 0 [DomNode.mk 1 []]).preorder ∧
      selectorMatches [fun e => e == 1] 1 = true ∧
      (1 ∈ (observeAndProcess (DomNode.mk 0 [DomNode.mk 1 []]) [fun e => e == 1]
          (DomNode.mk 0 [DomNode.mk 1 []])).initialInvocations ∧
        ∀ (batch : List MutationRecord) (m : MutationRecord) (n : DomNode),
          m ∈ batch → n ∈ m.addedNodes →
          (selectorMatches [fun e => e == 1] n.id = true →
            n.id ∈ mutationBatchMatches [fun e => e == 1] batch) ∧
          (∀ d ∈ n.descendants, selectorMatches [fun e => e == 1] d = true →
            d ∈ mutationBatchMatches [fun e => e == 1] batch)) :=
  ⟨by decide, by decide,
    c5_initial_scan_and_insertions _ _ [fun e => e == 1] 1 (by decide) (by decide)⟩

/-- C10.  With an explicit root other than the default, the initial scan
still queries `document`, not the root: a matching element of the document
lying outside the root's subtree is still processed by the initial scan,
while the registered mutation observation targets exactly the given root
(childList + subtree). -/
theorem c10_initial_scan_ignores_root (doc root : DomNode)
    (sels : List (Nat → Bool)) (e : Nat)
    (he : e ∈ doc.preorder) (hm : selectorMatches sels e = true)
    (_hout : e ∉ root.preorder) :
    e ∈ (observeAndProcess doc sels root).initialInvocations ∧
      (observeAndProcess doc sels root).observeTarget = root ∧
      (observeAndProcess doc sels root).observeSubtree = true := by
  exact ⟨List.mem_filter.mpr ⟨he, hm⟩, rfl, rfl⟩

/-- Witness for `c10_initial_scan_ignores_root`: element 2 matches and sits
outside the subtree of the explicit root (element 1), yet is scanned. -/
theorem c10_witness :
    2 ∈ (DomNode.mk 0 [DomNode.mk 1 [], DomNode.mk 2 []]).preorder ∧
      selectorMatches [fun e => e == 2] 2 = true ∧
      2 ∉ (DomNode.mk 1 []).preorder ∧
      (2 ∈ (observeAndProcess (DomNode.mk 0 [DomNode.mk 1 [], DomNode.mk 2 []])
          [fun e => e == 2] (DomNode.mk 1 [])).initialInvocations ∧
        (observeAndProcess (DomNode.mk 0 [DomNode.mk 1 [], DomNode.mk 2 []])
          [fun e => e == 2] (DomNode.mk 1 [])).observeTarget = DomNode.mk 1 [] ∧
        (observeAndProcess (DomNode.mk 0 [DomNode.mk 1 [], DomNode.mk 2 []])
          [fun e => e == 2] (DomNode.mk 1 [])).observeSubtree = true) :=
  ⟨by decide, by decide, by decide,
    c10_initial_scan_ignores_root _ _ [fun e => e == 2] 2 (by decide) (by decide) (by decide)⟩

/-! ## Claims about the Feature Dispatcher -/

/-- C3.  If an eligible feature's `init` throws or rejects, the dispatcher
catches the failure and logs it with that feature's id, still invokes every
eligible feature registered after it (and did invoke the failing one), and -
`bootstrapFeatures` being a total function into `BootstrapResult` - no
exception or rejection escapes to the caller of the pass. -/
theorem c3_dispatcher_fault_isolation (env : BootstrapEnv)
    (pre post : List Feature) (f : Feature) (e : String)
    (helig : featureEligible env f = true)
    (hfail : f.init (getFeatureOptionsWithDefaults f env) = .error e) :
    (f.id, e) ∈ (bootstrapFeatures env (pre ++ f :: post)).failures ∧
      (f.id, getFeatureOptionsWithDefaults f env)
        ∈ (bootstrapFeatures env (pre ++ f :: post)).invoked ∧
      ∀ g ∈ post, featureEligible env g = true →
        (g.id, getFeatureOptionsWithDefaults g env)
          ∈ (bootstrapFeatures env (pre ++ f :: post)).invoked := by
  rw [bootstrapFeatures_eq]
  refine ⟨?_, ?_, ?_⟩
  · rw [failuresOf]
    apply List.mem_filterMap.mpr
    refine ⟨f, by simp, ?_⟩
    rw [helig, hfail]
    simp
  · rw [invokedOf]
    apply List.mem_filterMap.mpr
    exact ⟨f, by simp, by rw [helig]; simp⟩
  · intro g hg hgelig
    rw [invokedOf]
    apply List.mem_filterMap.mpr
    exact ⟨g, by simp [hg], by rw [hgelig]; simp⟩

/-- Witness for `c3_dispatcher_fault_isolation`: a throwing feature followed
by a succeeding one. -/
theorem c3_witness :
    featureEligible c3env c3failing = true ∧
      c3failing.init (getFeatureOptionsWithDefaults c3failing c3env) = .error "boom" ∧
      ((c3failing.id, "boom")
          ∈ (bootstrapFeatures c3env ([] ++ c3failing :: [c3next])).failures ∧
        (c3failing.id, getFeatureOptionsWithDefaults c3failing c3env)
          ∈ (bootstrapFeatures c3env ([] ++ c3failing :: [c3next])).invoked ∧
        ∀ g ∈ [c3next], featureEligible c3env g = true →
          (g.id, getFeatureOptionsWithDefaults g c3env)
            ∈ (bootstrapFeatures c3env ([] ++ c3failing :: [c3next])).invoked) :=
  ⟨by decide, by decide,
    c3_dispatcher_fault_isolation c3env [] [c3next] c3failing "boom"
      (by decide) (by decide)⟩

/-- C6.  The claim states feature activations are awaited concurrently, the
dispatcher not waiting for one `init` to settle before beginning the next.
The source's loop body is `await feature.init(...)`: with two eligible
features the timeline settles f1 strictly before f2 begins. -/
theorem c6_counterexample :
    bootstrapTrace c6env [c6feat1, c6feat2]
        = [ActivationEv.beginInit "f1", ActivationEv.settleInit "f1",
           ActivationEv.beginInit "f2", ActivationEv.settleInit "f2"] ∧
      ¬ ((bootstrapTrace c6env [c6feat1, c6feat2]).indexOf (ActivationEv.beginInit "f2")
          < (bootstrapTrace c6env [c6feat1, c6feat2]).indexOf
              (ActivationEv.settleInit "f1")) := by
  constructor
  · rfl
  · decide

/-- C6 (amended).  Feature activations are awaited sequentially, in
registration order: an eligible feature's `init` begins and settles before
any event of the features registered after it, and the pass completes after
the last activation settles. -/
theorem c6_amended (env : BootstrapEnv) (pre post : List Feature) (f : Feature)
    (helig : featureEligible env f = true) :
    bootstrapTrace env (pre ++ f :: post)
      = bootstrapTrace env pre
          ++ ActivationEv.beginInit f.id :: ActivationEv.settleInit f.id
            :: bootstrapTrace env post := by
  rw [bootstrapTrace_append]
  simp [bootstrapTrace, helig]

/-- Witness for `c6_amended` at the two-feature scenario. -/
theorem c6_amended_witness :
    featureEligible c6env c6feat1 = true ∧
      bootstrapTrace c6env ([] ++ c6feat1 :: [c6feat2])
        = bootstrapTrace c6env []
            ++ ActivationEv.beginInit c6feat1.id :: ActivationEv.settleInit c6feat1.id
              :: bootstrapTrace c6env [c6feat2] :=
  ⟨by decide, c6_amended c6env [] [c6feat2] c6feat1 (by decide)⟩

/-- C9.  During one activation pass a feature's `init` runs iff the page
type is among its page types, it is enabled (the explicit saved setting when
present, else its default-enabled flag) and it is not a PAT-requiring
feature without a configured PAT; a PAT-requiring feature without a PAT is
skipped with a warning naming it, without aborting the pass; and an invoked
feature receives settings resolving each key to the user-saved value when
one exists, else to the declared option default. -/
theorem c9_eligibility_and_settings (env : BootstrapEnv) (features : List Feature) :
    (bootstrapFeatures env features).invoked
        = features.filterMap (fun f =>
            if f.pageTypes.contains env.pageType
                && (match env.featureSettings f.id with
                    | some b => b
                    | none => f.isEnabledByDefault)
                && (!f.requiresPAT || env.hasPAT) then
              some (f.id, fun k =>
                match ((env.featureOptions f.id).getD []).lookup k with
                | some v => some v
                | none => (featureDefaults f).lookup k)
            else none) ∧
      (bootstrapFeatures env features).warnings
        = features.filterMap (fun f =>
            if f.pageTypes.contains env.pageType
                && (match env.featureSettings f.id with
                    | some b => b
                    | none => f.isEnabledByDefault)
                && (f.requiresPAT && !env.hasPAT) then
              some f.name
            else none) := by
  rw [bootstrapFeatures_eq]
  constructor
  · rw [invokedOf]
    apply List.filterMap_congr
    intro f _
    have hcond : featureEligible env f
        = (f.pageTypes.contains env.pageType
            && (match env.featureSettings f.id with
                | some b => b
                | none => f.isEnabledByDefault)
            && (!f.requiresPAT || env.hasPAT)) := by
      rw [featureEligible, featureEnabled, patSkipped]
      cases env.featureSettings f.id <;>
        cases f.requiresPAT <;> cases env.hasPAT <;> simp [Option.getD]
    rw [hcond]
    rfl
  · rw [warningsOf]
    apply List.filterMap_congr
    intro f _
    have hcond : (f.pageTypes.contains env.pageType && featureEnabled env f
          && patSkipped env f)
        = (f.pageTypes.contains env.pageType
            && (match env.featureSettings f.id with
                | some b => b
                | none => f.isEnabledByDefault)
            && (f.requiresPAT && !env.hasPAT)) := by
      rw [featureEnabled, patSkipped]
      cases env.featureSettings f.id <;> simp [Option.getD]
    rw [hcond]

/-! ## Claims about the Scoped Cache -/

/-- C4.  The claim's validity condition ("valid iff an entry exists and
either the proof is absent and the TTL has not elapsed, or the stored proof
is not older than the supplied one") disagrees with the source: for an entry
stored without a freshness proof, a read supplying a proof falls back to the
TTL check and, within the TTL, returns the value - the claim's condition
calls it invalid. -/
theorem c4_counterexample :
    getCachedFileMetadata (.ok c4store) "o" "re" "p" "m" 0 (some 5)
        = .ok (some ⟨100, "u", some "abc"⟩) ∧
      specGetIfFreshValid (c4store (fileCacheKey "o" "re" "p" "m")) 0 (some 5)
        = false := by
  constructor
  · rfl
  · rfl

/-- C4 (amended).  A read is valid iff an entry exists, its stored `sha` is
present and nonempty, and - when both the supplied and the stored freshness
proofs are present - the stored proof is not older than the supplied one,
otherwise (either proof absent) the TTL has not elapsed; on a valid read the
stored value is returned unchanged.  In particular, after
`set(key, v, proof = A)` with a nonempty sha: a read with proof `A` returns
`v`, a read with a strictly newer proof `B` returns absent, and a read with
no proof returns absent once the TTL has elapsed since the write. -/
theorem c4_amended_cache_freshness (store : String → Option CachedFileMetadata)
    (owner repo path ref : String) (now t a b : Nat) (metadata : FileMetadata)
    (supplied : Option Nat) :
    (getCachedFileMetadata (.ok store) owner repo path ref now supplied
        = .ok ((store (fileCacheKey owner repo path ref)).bind fun data =>
            if fileCacheReadValid data now supplied then
              some ⟨data.size, data.downloadUrl, data.sha⟩
            else none)) ∧
      (metadata.sha.getD "" ≠ "" →
        getCachedFileMetadata
            (setCachedFileMetadata (.ok store) owner repo path ref metadata t (some a))
            owner repo path ref now (some a)
          = .ok (some ⟨metadata.size, metadata.downloadUrl, metadata.sha⟩)) ∧
      (a < b →
        getCachedFileMetadata
            (setCachedFileMetadata (.ok store) owner repo path ref metadata t (some a))
            owner repo path ref now (some b)
          = .ok none) ∧
      (CACHE_DURATION ≤ now - t →
        getCachedFileMetadata
            (setCachedFileMetadata (.ok store) owner repo path ref metadata t (some a))
            owner repo path ref now none
          = .ok none) := by
  refine ⟨?_, ?_, ?_, ?_⟩
  · rw [getCachedFileMetadata]
    cases hst : store (fileCacheKey owner repo path ref) with
    | none => rfl
    | some data =>
      by_cases hsha : data.sha.getD "" = ""
      · simp [hsha, fileCacheReadValid]
      · cases hsup : supplied with
        | some p =>
          cases hstored : data.lastCommitTime with
          | some s =>
            by_cases hcmp : s < p
            · simp [hsha, hstored, fileCacheReadValid, hcmp, Nat.not_le_of_lt hcmp]
            · simp [hsha, hstored, fileCacheReadValid, hcmp, Nat.le_of_not_lt hcmp]
          | none =>
            by_cases httl : CACHE_DURATION ≤ now - data.timestamp
            · simp [hsha, hstored, fileCacheReadValid, httl, Nat.not_lt_of_le httl]
            · simp [hsha, hstored, fileCacheReadValid, httl, Nat.lt_of_not_le httl]
        | none =>
          by_cases httl : CACHE_DURATION ≤ now - data.timestamp
          · simp [hsha, fileCacheReadValid, httl, Nat.not_lt_of_le httl]
          · simp [hsha, fileCacheReadValid, httl, Nat.lt_of_not_le httl]
  · intro hsha
    simp [setCachedFileMetadata, getCachedFileMetadata, hsha]
  · intro hab
    by_cases hsha : metadata.sha.getD "" = "" <;>
      simp [setCachedFileMetadata, getCachedFileMetadata, hsha, hab]
  · intro httl
    by_cases hsha : metadata.sha.getD "" = "" <;>
      simp [setCachedFileMetadata, getCachedFileMetadata, hsha, httl]

/-- Witness for `c4_amended_cache_freshness` at a concrete store and entry. -/
theorem c4_amended_witness :
    ((some "abc" : Option String).getD "" ≠ "") ∧ (3 : Nat) < 7 ∧
      CACHE_DURATION ≤ 4000000 - 0 ∧
      (getCachedFileMetadata (.ok c4store) "o" "re" "p" "m" 0 (some 5)
          = .ok ((c4store (fileCacheKey "o" "re" "p" "m")).bind fun data =>
              if fileCacheReadValid data 0 (some 5) then
                some ⟨data.size, data.downloadUrl, data.sha⟩
              else none)) ∧
      getCachedFileMetadata
          (setCachedFileMetadata (.ok c4store) "o" "re" "p" "m"
            ⟨7, "v", some "abc"⟩ 0 (some 3))
          "o" "re" "p" "m" 0 (some 3)
        = .ok (some ⟨7, "v", some "abc"⟩) ∧
      getCachedFileMetadata
          (setCachedFileMetadata (.ok c4store) "o" "re" "p" "m"
            ⟨7, "v", some "abc"⟩ 0 (some 3))
          "o" "re" "p" "m" 0 (some 7)
        = .ok none ∧
      getCachedFileMetadata
          (setCachedFileMetadata (.ok c4store) "o" "re" "p" "m"
            ⟨7, "v", some "abc"⟩ 0 (some 3))
          "o" "re" "p" "m" 4000000 none
        = .ok none :=
  ⟨by decide, by decide, by decide,
    (c4_amended_cache_freshness c4store "o" "re" "p" "m" 0 0 3 7
        ⟨7, "v", some "abc"⟩ (some 5)).1,
    (c4_amended_cache_freshness c4store "o" "re" "p" "m" 0 0 3 7
        ⟨7, "v", some "abc"⟩ (some 5)).2.1 (by decide),
    (c4_amended_cache_freshness c4store "o" "re" "p" "m" 0 0 3 7
        ⟨7, "v", some "abc"⟩ (some 5)).2.2.1 (by decide),
    (c4_amended_cache_freshness c4store "o" "re" "p" "m" 4000000 0 3 7
        ⟨7, "v", some "abc"⟩ (some 5)).2.2.2 (by decide)⟩

/-- C7.  The claim states a failing storage backend makes `get` return
absent and `set` a logged no-op.  The source `await`s the storage promise
with no `try`/`catch`, so both operations re-raise the storage failure to
the calling feature instead. -/
theorem c7_counterexample :
    getCachedTree (.error "storage unavailable") "o" "re" "m" 0 ≠ .ok none ∧
      getCachedTree (.error "storage unavailable") "o" "re" "m" 0
        = .error "storage unavailable" ∧
      setCachedTree (.error "storage unavailable") "o" "re" "m" [] 0
        = .error "storage unavailable" ∧
      getCachedFileMetadata (.error "storage unavailable") "o" "re" "p" "m" 0 none
        ≠ .ok none := by
  refine ⟨by decide, rfl, rfl, by decide⟩

/-- C7 (amended).  When the durable store is unavailable, every cache
operation - tree get/set and file-metadata get/set - propagates the storage
failure unchanged to its caller; the cache helpers contain no catch and no
logging for storage errors. -/
theorem c7_amended_storage_failure_propagates (e : String)
    (owner repo path ref : String) (now t : Nat) (tree : List String)
    (metadata : FileMetadata) (supplied lct : Option Nat) :
    getCachedTree (.error e) owner repo ref now = .error e ∧
      setCachedTree (.error e) owner repo ref tree t = .error e ∧
      getCachedFileMetadata (.error e) owner repo path ref now supplied = .error e ∧
      setCachedFileMetadata (.error e) owner repo path ref metadata t lct = .error e :=
  ⟨rfl, rfl, rfl, rfl⟩

/-! ## Claims about the API client -/

/-- No decimal digit character is a colon. -/
theorem natDigitChar_ne_colon (d : Nat) (h : d < 10) : (natDigitChar d != ':') = true := by
  interval_cases d <;> decide

/-- `digitVal` inverts `natDigitChar` on digits. -/
theorem digitVal_natDigitChar (d : Nat) (h : d < 10) :
    digitVal (natDigitChar d) = some d := by
  interval_cases d <;> decide

/-- Every character of a decimal rendering differs from the colon. -/
theorem natDecimal_ne_colon (n : Nat) : ∀ c ∈ natDecimal n, (c != ':') = true := by
  induction n using Nat.strong_induction_on with
  | _ n ih =>
    rw [natDecimal]
    split
    · rename_i h
      intro c hc
      rw [List.mem_singleton] at hc
      subst hc
      exact natDigitChar_ne_colon n h
    · rename_i h
      intro c hc
      rcases List.mem_append.mp hc with h1 | h2
      · exact ih (n / 10) (Nat.div_lt_self (by omega) (by omega)) c h1
      · rw [List.mem_singleton] at h2
        subst h2
        exact natDigitChar_ne_colon (n % 10) (Nat.mod_lt _ (by omega))

/-- A decimal rendering is never empty. -/
theorem natDecimal_ne_nil (n : Nat) : natDecimal n ≠ [] := by
  rw [natDecimal]
  split <;> simp

/-- Folding the parse step over a decimal rendering recovers the number. -/
theorem decStep_fold (n : Nat) : (natDecimal n).foldl decStep (some 0) = some n := by
  induction n using Nat.strong_induction_on with
  | _ n ih =>
    rw [natDecimal]
    split
    · rename_i h
      simp [List.foldl, decStep, digitVal_natDigitChar n h]
    · rename_i h
      rw [List.foldl_append, ih (n / 10) (Nat.div_lt_self (by omega) (by omega))]
      have hm : n % 10 < 10 := Nat.mod_lt _ (by omega)
      simp [List.foldl, decStep, digitVal_natDigitChar _ hm]
      omega

/-- Decimal parse is a left inverse of decimal rendering. -/
theorem decimalToNat_natDecimal (n : Nat) : decimalToNat (natDecimal n) = some n := by
  have hne : ¬ ((natDecimal n).isEmpty = true) := by
    simp [List.isEmpty_iff, natDecimal_ne_nil n]
  rw [decimalToNat, if_neg hne]
  exact decStep_fold n

/-- `takeWhile` over a list of satisfying characters followed by a failing
one returns exactly the satisfying part. -/
theorem takeWhile_append_stop (p : Char → Bool) (a : List Char) (c : Char)
    (r : List Char) (ha : ∀ x ∈ a, p x = true) (hc : p c = false) :
    (a ++ c :: r).takeWhile p = a := by
  induction a with
  | nil => simp [List.takeWhile_cons, hc]
  | cons x xs ih =>
    have hx : p x = true := ha x (by simp)
    simp [List.takeWhile_cons, hx, ih (fun y hy => ha y (by simp [hy]))]

/-- A list is a Boolean prefix of itself extended by anything. -/
theorem isPrefixOf_append_self (a b : List Char) : a.isPrefixOf (a ++ b) = true := by
  induction a with
  | nil => simp [List.isPrefixOf]
  | cons x xs ih => simp [List.isPrefixOf, ih]

/-- String concatenation concatenates the character data. -/
theorem strData_append (s t : String) : (s ++ t).data = s.data ++ t.data := by
  cases s
  cases t
  rfl

/-- The character data of a `getJson` error message, decomposed. -/
theorem mkApiErrorMsg_toList (status : Nat) (statusText : String) :
    (mkApiErrorMsg status statusText).toList
      = errMsgHead.toList
          ++ (natDecimal status ++ ':' :: ' ' :: statusText.toList) := by
  show (mkApiErrorMsg status statusText).data
      = errMsgHead.data ++ (natDecimal status ++ ':' :: ' ' :: statusText.data)
  rw [mkApiErrorMsg, strData_append, strData_append, strData_append]
  have h1 : (natDecimalStr status).data = natDecimal status := rfl
  have h2 : (": " : String).data = [':', ' '] := rfl
  rw [h1, h2]
  simp [List.append_assoc]

/-- The status is recoverable from the error message. -/
theorem errorStatusOfMsg_mkApiErrorMsg (status : Nat) (statusText : String) :
    errorStatusOfMsg (mkApiErrorMsg status statusText) = some status := by
  rw [errorStatusOfMsg, mkApiErrorMsg_toList]
  have hpre : errMsgHead.toList.isPrefixOf
      (errMsgHead.toList ++ (natDecimal status ++ ':' :: ' ' :: statusText.toList))
      = true := isPrefixOf_append_self _ _
  rw [if_pos hpre]
  have hlen : errMsgHead.length = errMsgHead.toList.length := rfl
  rw [hlen, List.drop_left]
  rw [takeWhile_append_stop _ _ ':' _ (natDecimal_ne_colon status) (by decide)]
  exact decimalToNat_natDecimal status

/-- A needle sitting whole inside a haystack is found by the tail scan. -/
theorem tails_any_isPrefixOf (x n z : List Char) :
    ((x ++ (n ++ z)).tails.any fun t => n.isPrefixOf t) = true := by
  apply List.any_eq_true.mpr
  refine ⟨n ++ z, ?_, isPrefixOf_append_self n z⟩
  rw [List.mem_tails]
  exact List.suffix_append x (n ++ z)

/-- The decimal rendering of 403. -/
theorem natDecimal_403 : natDecimal 403 = ['4', '0', '3'] := by
  rw [natDecimal, dif_neg (by omega), natDecimal, dif_neg (by omega),
    natDecimal, dif_pos (by omega)]
  decide

/-- The decimal rendering of 429. -/
theorem natDecimal_429 : natDecimal 429 = ['4', '2', '9'] := by
  rw [natDecimal, dif_neg (by omega), natDecimal, dif_neg (by omega),
    natDecimal, dif_pos (by omega)]
  decide

/-- The caller's substring check fires on a 403 error message. -/
theorem isRateLimitSignal_403 (statusText : String) :
    isRateLimitSignal (mkApiErrorMsg 403 statusText) = true := by
  rw [isRateLimitSignal, Bool.or_eq_true]
  left
  rw [strIncludes, mkApiErrorMsg_toList, natDecimal_403]
  exact tails_any_isPrefixOf _ _ _

/-- The caller's substring check fires on a 429 error message. -/
theorem isRateLimitSignal_429 (statusText : String) :
    isRateLimitSignal (mkApiErrorMsg 429 statusText) = true := by
  rw [isRateLimitSignal, Bool.or_eq_true]
  right
  rw [strIncludes, mkApiErrorMsg_toList, natDecimal_429]
  exact tails_any_isPrefixOf _ _ _

/-- C8.  On every non-2xx response `getJson` throws an error whose message
embeds the HTTP status; the status is exactly recoverable from the message
(`errorStatusOfMsg`), so a discriminator built on it flags precisely the
rate-limit/forbidden statuses 403 and 429, letting the caller tell them
apart from generic failures; and the check `fetchTreeData` actually applies
(`message.includes('403') || message.includes('429')`) fires on 403 and 429
messages, triggering its cool-down. -/
theorem c8_typed_error {α : Type} (status : Nat) (statusText : String) (body : α)
    (hbad : resOk status = false) :
    getJson status statusText body = .error (mkApiErrorMsg status statusText) ∧
      errorStatusOfMsg (mkApiErrorMsg status statusText) = some status ∧
      (isRateLimitOrForbiddenMsg (mkApiErrorMsg status statusText) = true
        ↔ status = 403 ∨ status = 429) ∧
      isRateLimitSignal (mkApiErrorMsg 403 statusText) = true ∧
      isRateLimitSignal (mkApiErrorMsg 429 statusText) = true := by
  refine ⟨?_, errorStatusOfMsg_mkApiErrorMsg status statusText, ?_,
    isRateLimitSignal_403 statusText, isRateLimitSignal_429 statusText⟩
  · rw [getJson, if_neg]
    simp [hbad]
  · rw [isRateLimitOrForbiddenMsg, errorStatusOfMsg_mkApiErrorMsg status statusText]
    simp

/-- Witness for `c8_typed_error` at a concrete 404 response. -/
theorem c8_witness :
    resOk 404 = false ∧
      (getJson 404 "Not Found" "body" = .error (mkApiErrorMsg 404 "Not Found") ∧
        errorStatusOfMsg (mkApiErrorMsg 404 "Not Found") = some 404 ∧
        (isRateLimitOrForbiddenMsg (mkApiErrorMsg 404 "Not Found") = true
          ↔ (404 : Nat) = 403 ∨ (404 : Nat) = 429) ∧
        isRateLimitSignal (mkApiErrorMsg 403 "Not Found") = true ∧
        isRateLimitSignal (mkApiErrorMsg 429 "Not Found") = true) :=
  ⟨by decide, c8_typed_error 404 "Not Found" "body" (by decide)⟩
